import Mathlib

/-!
Verification of the Finance-question-randomizer repository: a prize-wheel
widget (src/unnamed/part_000) and a hidden Flappy-style canvas game
(src/js/flappy.js).  Each section shallowly embeds the relevant JavaScript
into Lean: pure numeric code becomes functions over the rationals (or an
abstract linear ordered field where the source works with real angles),
stateful code becomes explicit state passing, and fallible code returns
Option.  Rendering (canvas drawing) is omitted: it has no bearing on any
property stated here.
-/

/- ============================================================
   Prize wheel: selection, history and exhaustion
   (src/unnamed/part_000, functions isNamePicked / getAvailable /
   spin / onSpinComplete / addToHistory / updateStatus)
   ============================================================ -/

namespace SpinToWin

/-- A persisted spin-history record: the code stores objects
of shape with fields name and time (addToHistory). -/
structure HistoryEntry where
  name : String
  time : String
deriving DecidableEq, Repr

/-- `isNamePicked(name)`: `spinHistory.some(h => h.name === name)`. -/
def isNamePicked (hist : List HistoryEntry) (name : String) : Bool :=
  hist.any (fun h => h.name = name)

/-- `getAvailable()`: `names.filter(n => !isNamePicked(n))`. -/
def getAvailable (names : List String) (hist : List HistoryEntry) : List String :=
  names.filter (fun n => !isNamePicked hist n)

/-- The wheel widget state relevant to spinning: the roster, the persisted
history, the re-entrancy flag, the last winner index, and the two
UI effects of showAllPicked / hideAllPicked. -/
structure WheelState where
  names : List String
  spinHistory : List HistoryEntry
  spinning : Bool
  winnerIndex : ℕ
  allPickedShown : Bool
  spinBtnDisabled : Bool
deriving DecidableEq, Repr

/-- `Math.floor(rho * n)` for a random draw `rho ∈ [0,1)`: the index used by
`spin` to pick among the available names. -/
def randIndex (rho : ℚ) (n : ℕ) : ℕ :=
  (Int.floor (rho * n)).toNat

/-- The `spin()` operation of src/unnamed/part_000 carried through to
completion (`onSpinComplete` → `addToHistory` → `updateStatus`):

* if a spin is in progress, no-op;
* if no name is available, `showAllPicked()` (badge shown, button disabled);
* otherwise pick `available[Math.floor(Math.random()*available.length)]`,
  append it to the history with the formatted time string, re-enable the
  button, and run `updateStatus()`, which shows the all-picked badge and
  disables the button exactly when nothing is left.

`rho` is the `Math.random()` draw, `timeStr` the formatted timestamp.
The rotation animation is pure drawing plus the target-rotation arithmetic
verified separately in `SpinMath`. -/
def spin (rho : ℚ) (timeStr : String) (w : WheelState) : WheelState :=
  if w.spinning then w
  else
    let available := getAvailable w.names w.spinHistory
    if available.isEmpty then
      { w with allPickedShown := true, spinBtnDisabled := true }
    else
      let winnerName := available.getD (randIndex rho available.length) ""
      let hist := w.spinHistory ++ [⟨winnerName, timeStr⟩]
      let availAfter := getAvailable w.names hist
      { names := w.names
        spinHistory := hist
        spinning := false
        winnerIndex := w.names.indexOf winnerName
        allPickedShown := availAfter.isEmpty
        spinBtnDisabled := availAfter.isEmpty }

theorem randIndex_lt (rho : ℚ) (n : ℕ) (h1 : rho < 1)
    (hn : 0 < n) : randIndex rho n < n := by
  have hn' : (0:ℚ) < n := by exact_mod_cast hn
  have hlt : rho * n < n := by
    calc rho * (n:ℚ) < 1 * n := by
          exact mul_lt_mul_of_pos_right h1 hn'
    _ = n := one_mul _
  have hfl : Int.floor (rho * (n:ℚ)) < (n:ℤ) := by
    have := Int.floor_le_floor (α := ℚ) (le_of_lt hlt)
    have hfn : Int.floor ((n:ℚ)) = (n:ℤ) := by exact_mod_cast Int.floor_intCast (α := ℚ) n
    by_contra hcon
    push_neg at hcon
    have : (n:ℚ) ≤ rho * n := by
      calc (n:ℚ) = ((n:ℤ):ℚ) := by push_cast; ring
      _ ≤ ((Int.floor (rho * (n:ℚ)) : ℤ) : ℚ) := by exact_mod_cast hcon
      _ ≤ rho * n := Int.floor_le _
    linarith
  have : (randIndex rho n : ℤ) < (n:ℤ) := by
    unfold randIndex
    rcases le_or_lt 0 (Int.floor (rho * (n:ℚ))) with hge | hlt0
    · rwa [Int.toNat_of_nonneg hge]
    · have : (Int.floor (rho * (n:ℚ))).toNat = 0 := Int.toNat_of_nonpos (le_of_lt hlt0)
      rw [this]; exact_mod_cast hn
  exact_mod_cast this

/-- C1: with at least one roster name absent from history, invoking `spin`
(while no spin is running) selects a winner that is in the roster but not in
the history and appends exactly that winner to the history; once every
roster name appears in history, `spin` leaves the history unchanged, shows
the all-picked state and disables the trigger. -/
theorem spin_no_repeat_until_exhausted
    (w : WheelState) (rho : ℚ) (ts : String)
    (hN : 1 ≤ w.names.length) (hspin : w.spinning = false)
    (h0 : 0 ≤ rho) (h1 : rho < 1) :
    (getAvailable w.names w.spinHistory ≠ [] →
      ∃ winner : String,
        winner ∈ w.names ∧
        isNamePicked w.spinHistory winner = false ∧
        (spin rho ts w).spinHistory = w.spinHistory ++ [⟨winner, ts⟩]) ∧
    ((∀ n ∈ w.names, isNamePicked w.spinHistory n = true) →
      (spin rho ts w).spinHistory = w.spinHistory ∧
      (spin rho ts w).allPickedShown = true ∧
      (spin rho ts w).spinBtnDisabled = true) := by
  constructor
  · intro hav
    set available := getAvailable w.names w.spinHistory with havdef
    have hlen : 0 < available.length := List.length_pos.mpr hav
    have hidx : randIndex rho available.length < available.length :=
      randIndex_lt rho available.length h1 hlen
    set winner := available.getD (randIndex rho available.length) "" with hwdef
    have hget : winner = available.get ⟨randIndex rho available.length, hidx⟩ := by
      rw [hwdef, List.getD_eq_get]
    have hmemav : winner ∈ available := by
      rw [hget]; exact List.get_mem available (randIndex rho available.length) hidx
    have hmem : winner ∈ w.names ∧ !isNamePicked w.spinHistory winner := by
      have := List.mem_filter.mp (by rw [havdef] at hmemav; exact hmemav)
      exact ⟨this.1, this.2⟩
    refine ⟨winner, hmem.1, by simpa using hmem.2, ?_⟩
    show (spin rho ts w).spinHistory = _
    rw [spin, if_neg (by rw [hspin]; exact Bool.false_ne_true)]
    have hne : available.isEmpty = false := by
      rw [Bool.eq_false_iff]
      intro hcon
      rw [List.isEmpty_iff] at hcon
      exact hav hcon
    simp only [← havdef, hne, Bool.false_eq_true, if_false, ← hwdef]
  · intro hall
    have hav : getAvailable w.names w.spinHistory = [] := by
      rw [getAvailable, List.filter_eq_nil]
      intro n hn
      simp [hall n hn]
    rw [spin, if_neg (by rw [hspin]; exact Bool.false_ne_true)]
    simp [hav]

/-- Witness for C1 at a concrete wheel: roster of two names, one already
picked; and a fully picked roster. -/
theorem spin_no_repeat_until_exhausted_witness :
    (1 ≤ (WheelState.mk ["A", "B"] [⟨"A", "t0"⟩] false 0 false false).names.length ∧
     (WheelState.mk ["A", "B"] [⟨"A", "t0"⟩] false 0 false false).spinning = false ∧
     (0:ℚ) ≤ 1/2 ∧ (1/2:ℚ) < 1) ∧
    (getAvailable ["A", "B"] [⟨"A", "t0"⟩] ≠ [] →
      ∃ winner : String,
        winner ∈ ["A", "B"] ∧
        isNamePicked [⟨"A", "t0"⟩] winner = false ∧
        (spin (1/2) "t1" (WheelState.mk ["A", "B"] [⟨"A", "t0"⟩] false 0 false false)).spinHistory
          = [⟨"A", "t0"⟩] ++ [⟨winner, "t1"⟩]) ∧
    ((∀ n ∈ ["A", "B"], isNamePicked [HistoryEntry.mk "A" "t0"] n = true) →
      (spin (1/2) "t1" (WheelState.mk ["A", "B"] [⟨"A", "t0"⟩] false 0 false false)).spinHistory
        = [⟨"A", "t0"⟩] ∧
      (spin (1/2) "t1" (WheelState.mk ["A", "B"] [⟨"A", "t0"⟩] false 0 false false)).allPickedShown = true ∧
      (spin (1/2) "t1" (WheelState.mk ["A", "B"] [⟨"A", "t0"⟩] false 0 false false)).spinBtnDisabled = true) := by
  refine ⟨⟨by decide, by decide, by norm_num, by norm_num⟩, ?_⟩
  exact spin_no_repeat_until_exhausted
    (WheelState.mk ["A", "B"] [⟨"A", "t0"⟩] false 0 false false) (1/2) "t1"
    (by decide) (by decide) (by norm_num) (by norm_num)

end SpinToWin

/- ============================================================
   Prize wheel: target-rotation arithmetic (src/unnamed/part_000,
   the calculation block inside spin, lines 393-397, together with
   TWO_PI and POINTER_ANGLE of lines 139-140)
   ============================================================ -/

namespace SpinMath

variable {α : Type} [LinearOrderedField α] [FloorRing α]

/-- The JavaScript remainder operator on numbers: `a % b` is
`a - b * trunc(a / b)` (the quotient is truncated toward zero). -/
def jsMod (a b : α) : α :=
  a - b * (if 0 ≤ a / b then ((⌊a / b⌋ : ℤ) : α) else ((⌈a / b⌉ : ℤ) : α))

/-- `POINTER_ANGLE = (3 * Math.PI) / 2`, expressed as a fraction of the
full turn `twoPi`: `3 * twoPi / 4`. -/
def pointerAngle (twoPi : α) : α := 3 * twoPi / 4

/-- The target rotation computed by `spin()`:

`winnerSliceCenter = winnerIdx * slice + slice / 2` with
`slice = TWO_PI / names.length`,
`extraAngle = (POINTER_ANGLE - winnerSliceCenter - rotation % TWO_PI + TWO_PI * 20) % TWO_PI`,
`target = rotation + fullSpins * TWO_PI + extraAngle`.

`fullSpins` abstracts `TOKENS.spinMinRotations + Math.floor(Math.random() *
TOKENS.spinExtraRots)`, a natural number. -/
def spinTarget (twoPi rotation : α) (n winnerIdx fullSpins : ℕ) : α :=
  let slice := twoPi / (n : α)
  let winnerSliceCenter := (winnerIdx : α) * slice + slice / 2
  let extraAngle :=
    jsMod (pointerAngle twoPi - winnerSliceCenter - jsMod rotation twoPi + twoPi * 20) twoPi
  rotation + (fullSpins : α) * twoPi + extraAngle

theorem jsMod_of_nonneg (a b : α) (ha : 0 ≤ a) (hb : 0 < b) :
    jsMod a b = a - b * ((⌊a / b⌋ : ℤ) : α) := by
  unfold jsMod
  rw [if_pos (div_nonneg ha (le_of_lt hb))]

theorem jsMod_nonneg_lt (a b : α) (ha : 0 ≤ a) (hb : 0 < b) :
    0 ≤ jsMod a b ∧ jsMod a b < b := by
  rw [jsMod_of_nonneg a b ha hb]
  have hfr : a - b * ((⌊a / b⌋ : ℤ) : α) = b * Int.fract (a / b) := by
    rw [Int.fract]
    field_simp
  rw [hfr]
  constructor
  · exact mul_nonneg (le_of_lt hb) (Int.fract_nonneg _)
  · have := Int.fract_lt_one (a / b)
    calc b * Int.fract (a / b) < b * 1 := by
          exact mul_lt_mul_of_pos_left this hb
    _ = b := mul_one b

/-- Reducing `p + b * k` modulo `b` gives back `p` when `0 ≤ p < b`
and `k` is a nonnegative integer. -/
theorem jsMod_add_int_mul (p b : α) (k : ℤ) (hp0 : 0 ≤ p) (hpb : p < b)
    (hk : 0 ≤ k) : jsMod (p + b * (k : α)) b = p := by
  have hb : 0 < b := lt_of_le_of_lt hp0 hpb
  have harg : 0 ≤ p + b * (k : α) := by
    have : (0:α) ≤ (k:α) := by exact_mod_cast hk
    nlinarith
  rw [jsMod_of_nonneg _ _ harg hb]
  have hq : (p + b * (k : α)) / b = p / b + (k : α) := by
    field_simp
    ring
  have hfl : ⌊(p + b * (k : α)) / b⌋ = k := by
    rw [hq, Int.floor_add_int]
    have h0 : ⌊p / b⌋ = 0 := by
      rw [Int.floor_eq_zero_iff]
      constructor
      · exact div_nonneg hp0 (le_of_lt hb)
      · rw [div_lt_one hb]; exact hpb
    rw [h0]; ring
  rw [hfl]; ring

/-- Core alignment fact, over any linear ordered field with a floor:
adding the winner-slice center back to the computed target and reducing
modulo the full turn lands exactly on the pointer angle. -/
theorem spinTarget_aligns (twoPi rotation : α) (n winnerIdx fullSpins : ℕ)
    (htp : 0 < twoPi) (hrot : 0 ≤ rotation) (hn : 1 ≤ n) (hw : winnerIdx < n) :
    jsMod (spinTarget twoPi rotation n winnerIdx fullSpins
            + (winnerIdx : α) * (twoPi / (n : α)) + (twoPi / (n : α)) / 2) twoPi
      = pointerAngle twoPi := by
  have hnQ : (0:α) < (n : α) := by exact_mod_cast Nat.lt_of_lt_of_le Nat.zero_lt_one hn
  set b := twoPi with hbdef
  set q := b / (n : α) with hqdef
  have hq : 0 < q := div_pos htp hnQ
  have hnq : (n : α) * q = b := by
    rw [hqdef]; field_simp
  set c := (winnerIdx : α) * q + q / 2 with hcdef
  have hwq0 : (0:α) ≤ (winnerIdx : α) * q :=
    mul_nonneg (Nat.cast_nonneg _) (le_of_lt hq)
  have hc0 : 0 ≤ c := by
    rw [hcdef]; linarith
  have hcb : c < b := by
    have hwle : (winnerIdx : α) ≤ (n : α) - 1 := by
      have hle : (winnerIdx : ℕ) + 1 ≤ n := hw
      have h2 : ((winnerIdx : ℕ) : α) + 1 ≤ (n : α) := by exact_mod_cast hle
      linarith
    have h3 : (winnerIdx : α) * q ≤ ((n : α) - 1) * q :=
      mul_le_mul_of_nonneg_right hwle (le_of_lt hq)
    have h4 : ((n : α) - 1) * q + q / 2 = b - q / 2 := by
      rw [← hnq]; ring
    rw [hcdef]; linarith
  set p := pointerAngle b with hpdef
  have hpval : p = 3 * b / 4 := by rw [hpdef, pointerAngle]
  have hp0 : 0 ≤ p := by rw [hpval]; linarith
  have hpb : p < b := by rw [hpval]; linarith
  -- the inner remainder of the current rotation
  set r := jsMod rotation b with hrdef
  obtain ⟨hr0, hrb⟩ := jsMod_nonneg_lt rotation b hrot htp
  rw [← hrdef] at hr0 hrb
  -- the argument of the outer remainder
  set A := p - c - r + b * 20 with hAdef
  have hA0 : 0 ≤ A := by rw [hAdef]; linarith
  set e := jsMod A b with hedef
  obtain ⟨he0, heb⟩ := jsMod_nonneg_lt A b hA0 htp
  rw [← hedef] at he0 heb
  have heA : e = A - b * ((⌊A / b⌋ : ℤ) : α) := by
    rw [hedef, jsMod_of_nonneg A b hA0 htp]
  have hrrot : r = rotation - b * ((⌊rotation / b⌋ : ℤ) : α) := by
    rw [hrdef, jsMod_of_nonneg rotation b hrot htp]
  -- floor bounds giving nonnegativity of the collected integer factor
  have hfA : ⌊A / b⌋ ≤ 20 := by
    have hAlt : A < b * 21 := by rw [hAdef]; linarith
    have : A / b < 21 := by
      rw [div_lt_iff htp]; linarith
    have h21 : (⌊A / b⌋ : α) < 21 := lt_of_le_of_lt (Int.floor_le _) this
    by_contra hcon
    push_neg at hcon
    have : (21:α) ≤ (⌊A / b⌋ : α) := by exact_mod_cast hcon
    linarith
  have hfrot : 0 ≤ ⌊rotation / b⌋ :=
    Int.floor_nonneg.mpr (div_nonneg hrot (le_of_lt htp))
  set K : ℤ := ⌊rotation / b⌋ + 20 + (fullSpins : ℤ) - ⌊A / b⌋ with hKdef
  have hK : 0 ≤ K := by
    rw [hKdef]
    have : (0:ℤ) ≤ (fullSpins : ℤ) := Int.natCast_nonneg _
    omega
  -- the target plus the slice center collapses to pointer + b * K
  have hsp : spinTarget b rotation n winnerIdx fullSpins
      = rotation + (fullSpins : α) * b + e := by
    simp only [spinTarget]
  have hcollapse :
      spinTarget b rotation n winnerIdx fullSpins + (winnerIdx : α) * q + q / 2
        = p + b * (K : α) := by
    rw [hsp, heA, hKdef, hAdef, hcdef, hrrot]
    push_cast
    ring
  rw [hcollapse]
  exact jsMod_add_int_mul p b K hp0 hpb hK

/-- C2: over the reals with `TWO_PI = 2π`, the target rotation computed by
`spin` satisfies `(target + winnerIdx * slice + slice / 2) % TWO_PI = 3π/2`
(the fixed pointer angle), for every nonnegative starting rotation, roster
size `n ≥ 1`, winner index `< n` and number of full extra turns. -/
theorem spin_target_lands_on_pointer (rotation : ℝ) (n winnerIdx fullSpins : ℕ)
    (hrot : 0 ≤ rotation) (hn : 1 ≤ n) (hw : winnerIdx < n) :
    jsMod (spinTarget (2 * Real.pi) rotation n winnerIdx fullSpins
            + (winnerIdx : ℝ) * (2 * Real.pi / (n : ℝ))
            + (2 * Real.pi / (n : ℝ)) / 2) (2 * Real.pi)
      = 3 * Real.pi / 2 := by
  have h := spinTarget_aligns (α := ℝ) (2 * Real.pi) rotation n winnerIdx fullSpins
    Real.two_pi_pos hrot hn hw
  rw [h]
  simp only [pointerAngle]
  ring

/-- Witness for C2: a four-slice wheel, winner index 1, five full spins,
starting rotation 0. -/
theorem spin_target_lands_on_pointer_witness :
    ((0:ℝ) ≤ 0 ∧ 1 ≤ 4 ∧ 1 < 4) ∧
    jsMod (spinTarget (2 * Real.pi) (0:ℝ) 4 1 5
            + (1 : ℝ) * (2 * Real.pi / (4 : ℝ))
            + (2 * Real.pi / (4 : ℝ)) / 2) (2 * Real.pi)
      = 3 * Real.pi / 2 := by
  refine ⟨⟨le_refl 0, by norm_num, by norm_num⟩, ?_⟩
  have h := spin_target_lands_on_pointer 0 4 1 5 (le_refl 0) (by norm_num) (by norm_num)
  simpa using h

end SpinMath

/- ============================================================
   Prize wheel: easing function (src/unnamed/part_000, lines 361-369,
   easeOutExpoWobble; parameters are the TOKENS ease/wobble entries)
   ============================================================ -/

namespace Easing

/-- The five configurable easing parameters read from CSS custom
properties into TOKENS. -/
structure EaseParams (α : Type) where
  easeDecayRate : α
  wobbleThreshold : α
  wobbleFrequency : α
  wobbleIntensity : α
  wobbleDamping : α

/-- `easeOutExpoWobble(t)` parameterised over the two transcendental
builtins it calls: `pow2 x` stands for `Math.pow(2, x)` and `sin` for
`Math.sin`.  The body follows the source line by line:

* `if (t >= 1) return 1`;
* `base = 1 - Math.pow(2, -easeDecayRate * t)`;
* `if (t <= wobbleThreshold) return base`;
* otherwise add `Math.sin((t - wobbleThreshold) * wobbleFrequency) *
  wobbleIntensity * (1 - t) * wobbleDamping`. -/
def easeOutExpoWobble {α : Type} [LinearOrderedField α]
    (pow2 sin : α → α) (P : EaseParams α) (t : α) : α :=
  if 1 ≤ t then 1
  else
    let base := 1 - pow2 (-(P.easeDecayRate * t))
    if t ≤ P.wobbleThreshold then base
    else
      let tail := t - P.wobbleThreshold
      base + sin (tail * P.wobbleFrequency) * P.wobbleIntensity * (1 - t) * P.wobbleDamping

/-- C8 counterexample: with the real `Math.pow(2, ·)` and `Math.sin` and
the configured parameter values decayRate = 1, wobbleThreshold = -1,
wobbleFrequency = wobbleIntensity = wobbleDamping = 1, the easing function
does not return 0 at t = 0 (it returns sin 1 > 0), refuting the claim for
all configured parameter values. -/
theorem ease_zero_endpoint_counterexample :
    easeOutExpoWobble (fun x : ℝ => (2:ℝ) ^ x) Real.sin
      (EaseParams.mk 1 (-1) 1 1 1) 0 ≠ 0 := by
  have hval : easeOutExpoWobble (fun x : ℝ => (2:ℝ) ^ x) Real.sin
      (EaseParams.mk 1 (-1) 1 1 1) 0 = Real.sin 1 := by
    rw [easeOutExpoWobble]
    rw [if_neg (by norm_num)]
    simp only
    rw [if_neg (by norm_num)]
    have h20 : (2:ℝ) ^ (-(1 * (0:ℝ))) = 1 := by
      rw [mul_zero, neg_zero, Real.rpow_zero]
    rw [h20]
    norm_num
  rw [hval]
  have : 0 < Real.sin 1 := by
    apply Real.sin_pos_of_pos_of_lt_pi
    · norm_num
    · have := Real.pi_gt_three
      linarith
  exact ne_of_gt this

/-- C8 amended: with `pow2 = Math.pow(2, ·)` and `sin = Math.sin` over the
reals, the easing function returns exactly 1 at t = 1 for every
configuration whatsoever, and returns exactly 0 at t = 0 for every
configuration whose wobble threshold is nonnegative (a negative threshold
breaks the t = 0 endpoint, see the counterexample). -/
theorem ease_endpoints (P : EaseParams ℝ) :
    easeOutExpoWobble (fun x : ℝ => (2:ℝ) ^ x) Real.sin P 1 = 1 ∧
    (0 ≤ P.wobbleThreshold →
      easeOutExpoWobble (fun x : ℝ => (2:ℝ) ^ x) Real.sin P 0 = 0) := by
  constructor
  · rw [easeOutExpoWobble]
    rw [if_pos (le_refl 1)]
  · intro hth
    rw [easeOutExpoWobble]
    rw [if_neg (by norm_num)]
    simp only
    rw [if_pos hth]
    rw [mul_zero, neg_zero, Real.rpow_zero]
    ring

/-- Witness for the amended C8 at a concrete configuration
(decayRate 10, threshold 7/10, frequency 30, intensity 1/10,
damping 1/2). -/
theorem ease_endpoints_witness :
    easeOutExpoWobble (fun x : ℝ => (2:ℝ) ^ x) Real.sin
      (EaseParams.mk 10 (7/10) 30 (1/10) (1/2)) 1 = 1 ∧
    ((0:ℝ) ≤ (7/10:ℝ) ∧
     easeOutExpoWobble (fun x : ℝ => (2:ℝ) ^ x) Real.sin
       (EaseParams.mk 10 (7/10) 30 (1/10) (1/2)) 0 = 0) := by
  have h := ease_endpoints (EaseParams.mk 10 (7/10) 30 (1/10) (1/2))
  exact ⟨h.1, by norm_num, h.2 (by norm_num)⟩

end Easing

/- ============================================================
   Flappy game: configuration, physics, pipes, scoring, collision,
   difficulty and best scores (src/js/flappy.js)
   ============================================================ -/

namespace Flappy

/-- The three difficulty tiers (DIFF_KEYS). -/
inductive DiffKey where
  | easy
  | normal
  | hard
deriving DecidableEq, Repr

/-- One difficulty preset: the seven physics constants overridden by
`applyDifficulty` (DIFFICULTY table, lines 53-57). -/
structure Preset where
  gravity : ℚ
  flapForce : ℚ
  terminalVel : ℚ
  pipeGap : ℚ
  pipeSpeed : ℚ
  pipeSpawn : ℚ
  hitboxPad : ℚ
deriving DecidableEq, Repr

/-- The DIFFICULTY table of flappy.js. -/
def DIFFICULTY : DiffKey → Preset
  | .easy   => ⟨22/100, -46/10, 48/10, 180, 19/10, 1900, 7⟩
  | .normal => ⟨28/100, -5,     55/10, 162, 22/10, 1700, 5⟩
  | .hard   => ⟨38/100, -6,     7,     138, 26/10, 1450, 2⟩

/-- The active configuration CFG: the seven preset-controlled physics
values plus the fixed layout constants (pipeWidth 52, groundH 50,
birdSize 28, birdX 70, width 380, height 520). -/
structure Cfg where
  gravity : ℚ
  flapForce : ℚ
  terminalVel : ℚ
  pipeGap : ℚ
  pipeSpeed : ℚ
  pipeSpawn : ℚ
  hitboxPad : ℚ
  pipeWidth : ℚ
  groundH : ℚ
  birdSize : ℚ
  birdX : ℚ
  width : ℚ
  height : ℚ
deriving DecidableEq, Repr

/-- CFG with the `normal` defaults of lines 32-50. -/
def defaultCfg : Cfg :=
  ⟨28/100, -5, 55/10, 162, 22/10, 1700, 5, 52, 50, 28, 70, 380, 520⟩

/-- `applyDifficulty(key)`: overwrite the seven preset-controlled fields of
CFG with the chosen preset (lines 62-76; the localStorage write of the
preference and the header refresh are UI side effects outside this model). -/
def applyDifficulty (k : DiffKey) (c : Cfg) : Cfg :=
  let d := DIFFICULTY k
  { c with gravity := d.gravity, flapForce := d.flapForce,
           terminalVel := d.terminalVel, pipeGap := d.pipeGap,
           pipeSpeed := d.pipeSpeed, pipeSpawn := d.pipeSpawn,
           hitboxPad := d.hitboxPad }

/-- A pipe obstacle: `{ x, topH, scored }` (line 1381). -/
structure Pipe where
  x : ℚ
  topH : ℚ
  scored : Bool
deriving DecidableEq, Repr

/-- The game state machine: 'idle' | 'play' | 'dead' | 'paused'. -/
inductive GState where
  | idle
  | play
  | dead
  | paused
deriving DecidableEq, Repr

/-- The bird: vertical position and velocity.  The `rot` field of the
source is a purely visual tilt (never read by physics, scoring or
collision) and is omitted. -/
structure Bird where
  y : ℚ
  vy : ℚ
deriving DecidableEq, Repr

/-- Per-difficulty best scores (`bestScores = { easy: 0, normal: 0, hard: 0 }`). -/
structure BestScores where
  easy : ℕ
  normal : ℕ
  hard : ℕ
deriving DecidableEq, Repr

def BestScores.get (b : BestScores) : DiffKey → ℕ
  | .easy => b.easy
  | .normal => b.normal
  | .hard => b.hard

def BestScores.set (b : BestScores) : DiffKey → ℕ → BestScores
  | .easy, v => { b with easy := v }
  | .normal, v => { b with normal := v }
  | .hard, v => { b with hard := v }

/-- The mutable game world: the active CFG, current difficulty, bird,
pipe list, score, state, the two timestamps, and the best-score map. -/
structure World where
  cfg : Cfg
  currentDifficulty : DiffKey
  bird : Bird
  pipes : List Pipe
  score : ℕ
  state : GState
  lastPipeTime : ℚ
  deadTime : ℚ
  bestScores : BestScores
deriving DecidableEq, Repr

/-- `die()` (lines 1418-1426): enter the dead state, stamp deadTime, and
raise the stored best score for the current difficulty when the run's
score strictly exceeds it (then persisted by saveBestScores). -/
def die (now : ℚ) (w : World) : World :=
  let w1 := { w with state := GState.dead, deadTime := now }
  if w1.bestScores.get w1.currentDifficulty < w1.score then
    { w1 with bestScores := w1.bestScores.set w1.currentDifficulty w1.score }
  else w1

/-- `resetGameState()` (lines 544-551). -/
def resetGameState (w : World) : World :=
  { w with bird := ⟨w.cfg.height / 2 - 30, 0⟩, pipes := [], score := 0,
           state := GState.idle, lastPipeTime := 0, deadTime := 0 }

/-- `changeDifficulty(key)` (lines 731-744): same key just closes the
picker; a different key applies the preset and resets the run (the
settings-picker UI flags are outside this model). -/
def changeDifficulty (k : DiffKey) (w : World) : World :=
  if k = w.currentDifficulty then w
  else
    resetGameState
      { w with cfg := applyDifficulty k w.cfg, currentDifficulty := k }

/-- `flap()` (lines 553-578), with `CFG.resetDelay = 600`. -/
def flap (now : ℚ) (w : World) : World :=
  match w.state with
  | .paused => w
  | .idle =>
      { w with state := GState.play,
               bird := { w.bird with vy := w.cfg.flapForce },
               lastPipeTime := now }
  | .play => { w with bird := { w.bird with vy := w.cfg.flapForce } }
  | .dead =>
      if 600 < now - w.deadTime then
        let w1 := resetGameState w
        { w1 with state := GState.play,
                  bird := { w1.bird with vy := w1.cfg.flapForce },
                  lastPipeTime := now }
      else w

/-- The bird-physics portion of one `update` tick (dt = 1, lines
1358-1368): gravity, terminal-velocity clamp, integration, ceiling clamp. -/
def birdPhysics (c : Cfg) (b : Bird) : Bird :=
  let vy1 := b.vy + c.gravity
  let vy2 := if c.terminalVel < vy1 then c.terminalVel else vy1
  let y1 := b.y + vy2
  if y1 < 0 then ⟨0, 0⟩ else ⟨y1, vy2⟩

/-- The pipe-collision test of lines 1404-1414: the bird box shrunk by the
forgiveness padding on every side, horizontal overlap with the pipe, and
vertical intrusion into the top or bottom solid region. -/
def pipeCollides (c : Cfg) (birdY : ℚ) (p : Pipe) : Bool :=
  let pad := c.hitboxPad
  let bx := c.birdX + pad
  let byv := birdY + pad
  let bs := c.birdSize - pad * 2
  decide (p.x < bx + bs ∧ bx < p.x + c.pipeWidth) &&
  decide (byv < p.topH ∨ p.topH + c.pipeGap < byv + bs)

/-- Result of the per-tick pipe loop: the surviving pipes (in processing
order), the score gained, and whether a collision ended the run. -/
structure PipesResult where
  pipes : List Pipe
  delta : ℕ
  died : Bool
deriving DecidableEq, Repr

/-- The pipe loop of lines 1386-1415, which walks the array from the last
index down with swap-and-pop removal; each original pipe is therefore
processed exactly once, so the loop is modelled on the reversed list.
Per pipe: move left by pipeSpeed, drop it once fully off screen, award one
point the first time its trailing edge passes birdX, and stop with a death
when the moved pipe collides (`die(); return` leaves later pipes
untouched). -/
def runPipes (c : Cfg) (birdY : ℚ) : List Pipe → PipesResult
  | [] => ⟨[], 0, false⟩
  | p :: rest =>
      let x1 := p.x - c.pipeSpeed
      if x1 + c.pipeWidth < 0 then
        runPipes c birdY rest
      else
        let nowScored := !p.scored && decide (x1 + c.pipeWidth < c.birdX)
        let p1 : Pipe := ⟨x1, p.topH, p.scored || nowScored⟩
        let d : ℕ := if nowScored then 1 else 0
        if pipeCollides c birdY p1 then
          ⟨p1 :: rest, d, true⟩
        else
          let r := runPipes c birdY rest
          ⟨p1 :: r.pipes, d + r.delta, r.died⟩

/-- One fixed physics tick: `update(FIXED_DT, now)` (lines 1344-1416).
`rand` supplies the `Math.random()` draws consumed when a pipe spawns
(its head is the draw, the tail is returned).  Ambient cloud and parallax
motion is pure scenery and omitted. -/
def update (now : ℚ) (w : World) (rand : List ℚ) : World × List ℚ :=
  if w.state ≠ GState.play then (w, rand)
  else
    let b := birdPhysics w.cfg w.bird
    let w1 := { w with bird := b }
    if w1.cfg.height - w1.cfg.groundH < b.y + w1.cfg.birdSize then
      (die now w1, rand)
    else
      let spawned :=
        if w1.cfg.pipeSpawn < now - w1.lastPipeTime then
          let r := rand.headD 0
          let minTop : ℚ := 60
          let maxTop := w1.cfg.height - w1.cfg.groundH - w1.cfg.pipeGap - 60
          ({ w1 with pipes := w1.pipes ++ [⟨w1.cfg.width, minTop + r * (maxTop - minTop), false⟩],
                     lastPipeTime := now }, rand.tail)
        else (w1, rand)
      let w2 := spawned.1
      let res := runPipes w2.cfg b.y w2.pipes.reverse
      let w3 := { w2 with pipes := res.pipes, score := w2.score + res.delta }
      if res.died then (die now w3, spawned.2) else (w3, spawned.2)

theorem BestScores.get_set (b : BestScores) (k k' : DiffKey) (v : ℕ) :
    (b.set k v).get k' = if k' = k then v else b.get k' := by
  cases k <;> cases k' <;> simp [BestScores.get, BestScores.set]

theorem die_state (now : ℚ) (w : World) : (die now w).state = GState.dead := by
  rw [die]; split_ifs <;> rfl

theorem die_score (now : ℚ) (w : World) : (die now w).score = w.score := by
  rw [die]; split_ifs <;> rfl

theorem die_currentDifficulty (now : ℚ) (w : World) :
    (die now w).currentDifficulty = w.currentDifficulty := by
  rw [die]; split_ifs <;> rfl

/-- The exact effect of `die` on the stored best scores: the current
difficulty's entry is raised to the run's score when and only when the
score strictly exceeds it; every other entry is untouched. -/
theorem die_best_get (now : ℚ) (w : World) (k : DiffKey) :
    (die now w).bestScores.get k =
      if k = w.currentDifficulty ∧ w.bestScores.get w.currentDifficulty < w.score
      then w.score else w.bestScores.get k := by
  rw [die]
  by_cases h : w.bestScores.get w.currentDifficulty < w.score
  · simp only [h, if_true]
    rw [BestScores.get_set]
    by_cases hk : k = w.currentDifficulty
    · simp [hk, h]
    · simp [hk, h]
  · simp only [h, if_false]
    simp [h]

/-- C9: switching to a different difficulty tier mid-run resets the run to
idle with score 0 and no pipes, installs all seven physics constants of the
new tier into the active configuration, records the new tier, and leaves
the best-score map (every tier) exactly as it was. -/
theorem changeDifficulty_resets_and_preserves_best (w : World) (k : DiffKey)
    (hk : k ≠ w.currentDifficulty) :
    (changeDifficulty k w).state = GState.idle ∧
    (changeDifficulty k w).score = 0 ∧
    (changeDifficulty k w).pipes = [] ∧
    (changeDifficulty k w).currentDifficulty = k ∧
    (changeDifficulty k w).cfg.gravity = (DIFFICULTY k).gravity ∧
    (changeDifficulty k w).cfg.flapForce = (DIFFICULTY k).flapForce ∧
    (changeDifficulty k w).cfg.terminalVel = (DIFFICULTY k).terminalVel ∧
    (changeDifficulty k w).cfg.pipeGap = (DIFFICULTY k).pipeGap ∧
    (changeDifficulty k w).cfg.pipeSpeed = (DIFFICULTY k).pipeSpeed ∧
    (changeDifficulty k w).cfg.pipeSpawn = (DIFFICULTY k).pipeSpawn ∧
    (changeDifficulty k w).cfg.hitboxPad = (DIFFICULTY k).hitboxPad ∧
    (changeDifficulty k w).bestScores = w.bestScores := by
  rw [changeDifficulty, if_neg hk]
  simp [resetGameState, applyDifficulty]

/-- Witness for C9: a mid-run normal-difficulty world switched to easy. -/
theorem changeDifficulty_resets_and_preserves_best_witness :
    (DiffKey.easy ≠
      (World.mk defaultCfg DiffKey.normal ⟨230, -2⟩ [⟨300, 200, false⟩] 3
        GState.play 100 0 ⟨1, 4, 2⟩).currentDifficulty) ∧
    ((changeDifficulty DiffKey.easy
        (World.mk defaultCfg DiffKey.normal ⟨230, -2⟩ [⟨300, 200, false⟩] 3
          GState.play 100 0 ⟨1, 4, 2⟩)).state = GState.idle ∧
     (changeDifficulty DiffKey.easy
        (World.mk defaultCfg DiffKey.normal ⟨230, -2⟩ [⟨300, 200, false⟩] 3
          GState.play 100 0 ⟨1, 4, 2⟩)).score = 0 ∧
     (changeDifficulty DiffKey.easy
        (World.mk defaultCfg DiffKey.normal ⟨230, -2⟩ [⟨300, 200, false⟩] 3
          GState.play 100 0 ⟨1, 4, 2⟩)).pipes = [] ∧
     (changeDifficulty DiffKey.easy
        (World.mk defaultCfg DiffKey.normal ⟨230, -2⟩ [⟨300, 200, false⟩] 3
          GState.play 100 0 ⟨1, 4, 2⟩)).currentDifficulty = DiffKey.easy ∧
     (changeDifficulty DiffKey.easy
        (World.mk defaultCfg DiffKey.normal ⟨230, -2⟩ [⟨300, 200, false⟩] 3
          GState.play 100 0 ⟨1, 4, 2⟩)).cfg.gravity = (DIFFICULTY DiffKey.easy).gravity ∧
     (changeDifficulty DiffKey.easy
        (World.mk defaultCfg DiffKey.normal ⟨230, -2⟩ [⟨300, 200, false⟩] 3
          GState.play 100 0 ⟨1, 4, 2⟩)).cfg.flapForce = (DIFFICULTY DiffKey.easy).flapForce ∧
     (changeDifficulty DiffKey.easy
        (World.mk defaultCfg DiffKey.normal ⟨230, -2⟩ [⟨300, 200, false⟩] 3
          GState.play 100 0 ⟨1, 4, 2⟩)).cfg.terminalVel = (DIFFICULTY DiffKey.easy).terminalVel ∧
     (changeDifficulty DiffKey.easy
        (World.mk defaultCfg DiffKey.normal ⟨230, -2⟩ [⟨300, 200, false⟩] 3
          GState.play 100 0 ⟨1, 4, 2⟩)).cfg.pipeGap = (DIFFICULTY DiffKey.easy).pipeGap ∧
     (changeDifficulty DiffKey.easy
        (World.mk defaultCfg DiffKey.normal ⟨230, -2⟩ [⟨300, 200, false⟩] 3
          GState.play 100 0 ⟨1, 4, 2⟩)).cfg.pipeSpeed = (DIFFICULTY DiffKey.easy).pipeSpeed ∧
     (changeDifficulty DiffKey.easy
        (World.mk defaultCfg DiffKey.normal ⟨230, -2⟩ [⟨300, 200, false⟩] 3
          GState.play 100 0 ⟨1, 4, 2⟩)).cfg.pipeSpawn = (DIFFICULTY DiffKey.easy).pipeSpawn ∧
     (changeDifficulty DiffKey.easy
        (World.mk defaultCfg DiffKey.normal ⟨230, -2⟩ [⟨300, 200, false⟩] 3
          GState.play 100 0 ⟨1, 4, 2⟩)).cfg.hitboxPad = (DIFFICULTY DiffKey.easy).hitboxPad ∧
     (changeDifficulty DiffKey.easy
        (World.mk defaultCfg DiffKey.normal ⟨230, -2⟩ [⟨300, 200, false⟩] 3
          GState.play 100 0 ⟨1, 4, 2⟩)).bestScores = ⟨1, 4, 2⟩) := by
  refine ⟨by decide, ?_⟩
  exact changeDifficulty_resets_and_preserves_best
    (World.mk defaultCfg DiffKey.normal ⟨230, -2⟩ [⟨300, 200, false⟩] 3
      GState.play 100 0 ⟨1, 4, 2⟩) DiffKey.easy (by decide)

/-- The game operations that touch the world state. -/
inductive Op where
  | tick (now : ℚ) (rand : List ℚ)
  | flapOp (now : ℚ)
  | changeDiff (k : DiffKey)
  | reset
  | dieOp (now : ℚ)

def applyOp : Op → World → World
  | .tick now rand, w => (update now w rand).1
  | .flapOp now, w => flap now w
  | .changeDiff k, w => changeDifficulty k w
  | .reset, w => resetGameState w
  | .dieOp now, w => die now w

theorem die_best_mono (now : ℚ) (w : World) (k : DiffKey) :
    w.bestScores.get k ≤ (die now w).bestScores.get k ∧
    ((die now w).bestScores.get k = w.bestScores.get k ∨
      ((die now w).state = GState.dead ∧ k = w.currentDifficulty ∧
       w.bestScores.get k < (die now w).score ∧
       (die now w).bestScores.get k = (die now w).score)) := by
  rw [die_best_get]
  by_cases h : k = w.currentDifficulty ∧
      w.bestScores.get w.currentDifficulty < w.score
  · rw [if_pos h]
    constructor
    · rw [h.1]; exact le_of_lt h.2
    · right
      refine ⟨die_state now w, h.1, ?_, ?_⟩
      · rw [die_score, h.1]; exact h.2
      · rw [die_score]
  · rw [if_neg h]
    exact ⟨le_refl _, Or.inl rfl⟩

/-- A tick either returns the world unchanged (apart from fields other
than the best scores) or goes through `die` on an intermediate world
sharing the original best scores and difficulty. -/
theorem update_best_cases (now : ℚ) (w : World) (rand : List ℚ) :
    (update now w rand).1.bestScores = w.bestScores ∨
    ∃ w' : World, (update now w rand).1 = die now w' ∧
      w'.bestScores = w.bestScores ∧
      w'.currentDifficulty = w.currentDifficulty := by
  rw [update]
  by_cases hplay : w.state ≠ GState.play
  · rw [if_pos hplay]
    exact Or.inl rfl
  · rw [if_neg hplay]
    by_cases hg : w.cfg.height - w.cfg.groundH <
        (birdPhysics w.cfg w.bird).y + w.cfg.birdSize
    · rw [if_pos hg]
      dsimp only
      exact Or.inr ⟨_, rfl, rfl, rfl⟩
    · rw [if_neg hg]
      by_cases hsp : w.cfg.pipeSpawn < now - w.lastPipeTime
      · rw [if_pos hsp]
        dsimp only
        split_ifs with hdied
        · dsimp only
          exact Or.inr ⟨_, rfl, rfl, rfl⟩
        · exact Or.inl rfl
      · rw [if_neg hsp]
        dsimp only
        split_ifs with hdied
        · dsimp only
          exact Or.inr ⟨_, rfl, rfl, rfl⟩
        · exact Or.inl rfl

/-- C10: across every modelled game operation the per-tier best score is
monotonically non-decreasing, and the only way it changes is the death
transition, which sets the current tier's entry to the run's score when
that score strictly exceeds the stored best. -/
theorem best_scores_monotone (op : Op) (w : World) (k : DiffKey) :
    w.bestScores.get k ≤ (applyOp op w).bestScores.get k ∧
    ((applyOp op w).bestScores.get k = w.bestScores.get k ∨
      ((applyOp op w).state = GState.dead ∧ k = w.currentDifficulty ∧
       w.bestScores.get k < (applyOp op w).score ∧
       (applyOp op w).bestScores.get k = (applyOp op w).score)) := by
  cases op with
  | dieOp now => exact die_best_mono now w k
  | flapOp now =>
      simp only [applyOp]
      cases hs : w.state with
      | paused => simp [flap, hs]
      | idle => simp [flap, hs]
      | play => simp [flap, hs]
      | dead =>
          simp only [flap, hs]
          split_ifs with h
          · simp [resetGameState]
          · simp
  | changeDiff kd =>
      simp only [applyOp, changeDifficulty]
      split_ifs with h
      · simp
      · simp [resetGameState, applyDifficulty]
  | reset =>
      simp only [applyOp]
      simp [resetGameState]
  | tick now rand =>
      rcases update_best_cases now w rand with h | ⟨w', he, hb, hc⟩
      · simp only [applyOp]
        rw [h]
        exact ⟨le_refl _, Or.inl rfl⟩
      · simp only [applyOp, he]
        have H := die_best_mono now w' k
        rw [hb, hc] at H
        exact H

/- ------------------------------------------------------------
   C3: per-pipe scoring across ticks
   ------------------------------------------------------------ -/

/-- The per-tick processing of a single pipe from the loop of lines
1386-1402 (move, off-screen removal, score award), paired with the running
score; `none` is a removed pipe.  Collision (lines 1404-1414) only ends
processing and is analysed separately. -/
def scoreTick (c : Cfg) : Option Pipe × ℕ → Option Pipe × ℕ
  | (none, s) => (none, s)
  | (some p, s) =>
      let x1 := p.x - c.pipeSpeed
      if x1 + c.pipeWidth < 0 then (none, s)
      else if !p.scored && decide (x1 + c.pipeWidth < c.birdX) then
        (some ⟨x1, p.topH, true⟩, s + 1)
      else (some ⟨x1, p.topH, p.scored⟩, s)

/-- `n` ticks of single-pipe processing starting from score 0. -/
def scoreTicks (c : Cfg) (p : Pipe) : ℕ → Option Pipe × ℕ
  | 0 => (some p, 0)
  | n + 1 => scoreTick c (scoreTicks c p n)

/-- `scoreTick` agrees with the actual pipe loop `runPipes` on a single
non-colliding pipe. -/
theorem scoreTick_matches_runPipes (c : Cfg) (y : ℚ) (p : Pipe) (s : ℕ)
    (hnc : ∀ p' : Pipe, pipeCollides c y p' = false) :
    runPipes c y [p] =
      ⟨(scoreTick c (some p, s)).1.toList, (scoreTick c (some p, s)).2 - s, false⟩ := by
  by_cases hoff : p.x - c.pipeSpeed + c.pipeWidth < 0
  · simp [runPipes, scoreTick, hoff]
  · by_cases hsc : (!p.scored && decide (p.x - c.pipeSpeed + c.pipeWidth < c.birdX)) = true
    · simp [runPipes, scoreTick, hoff, hsc, hnc]
    · simp [runPipes, scoreTick, hoff, hsc, hnc]

/-- C3: starting from an unscored pipe whose trailing edge has not yet
passed the player's fixed x-position, the cumulative score contributed by
that pipe after `n` ticks is 1 exactly when the pipe's (moved) trailing
edge is strictly left of birdX and 0 before that, and the pipe's scored
flag mirrors it — so the point is awarded on the first tick the trailing
edge crosses birdX, and never again.  (`pipeSpeed ≤ birdX` holds for every
difficulty: 1.9, 2.2 or 2.6 against birdX = 70; it rules out the pipe
jumping past both birdX and the removal line in one tick.) -/
theorem score_exactly_once (c : Cfg) (p : Pipe) (n : ℕ)
    (hv : 0 < c.pipeSpeed) (hvx : c.pipeSpeed ≤ c.birdX)
    (hstart : c.birdX ≤ p.x + c.pipeWidth) (hs : p.scored = false) :
    scoreTicks c p n =
      ((if p.x - n * c.pipeSpeed + c.pipeWidth < 0 then none
        else some ⟨p.x - n * c.pipeSpeed, p.topH,
                   decide (p.x - n * c.pipeSpeed + c.pipeWidth < c.birdX)⟩),
       if p.x - n * c.pipeSpeed + c.pipeWidth < c.birdX then 1 else 0) := by
  have hbx : 0 < c.birdX := lt_of_lt_of_le hv hvx
  induction n with
  | zero =>
      rw [scoreTicks]
      simp only [Nat.cast_zero, zero_mul, sub_zero]
      have h1 : ¬ p.x + c.pipeWidth < 0 := by linarith
      have h2 : ¬ p.x + c.pipeWidth < c.birdX := by linarith
      rw [if_neg h1, if_neg h2]
      simp [hs, h2]
      rw [← hs]
  | succ n ih =>
      rw [scoreTicks, ih]
      have e1 : p.x - ((n + 1 : ℕ) : ℚ) * c.pipeSpeed
          = p.x - (n : ℚ) * c.pipeSpeed - c.pipeSpeed := by push_cast; ring
      simp only [e1]
      by_cases hrem : p.x - (n : ℚ) * c.pipeSpeed + c.pipeWidth < 0
      · -- the pipe was already removed; nothing changes this tick
        rw [if_pos hrem]
        have hrem1 : p.x - (n : ℚ) * c.pipeSpeed - c.pipeSpeed + c.pipeWidth < 0 := by
          linarith
        have hB : p.x - (n : ℚ) * c.pipeSpeed + c.pipeWidth < c.birdX := by linarith
        have hB1 : p.x - (n : ℚ) * c.pipeSpeed - c.pipeSpeed + c.pipeWidth < c.birdX := by
          linarith
        rw [scoreTick, if_pos hrem1, if_pos hB, if_pos hB1]
      · rw [if_neg hrem]
        simp only [scoreTick]
        by_cases hrem1 : p.x - (n : ℚ) * c.pipeSpeed - c.pipeSpeed + c.pipeWidth < 0
        · -- the pipe is removed this tick; it scored on an earlier tick
          -- because its trailing edge is already at least pipeSpeed ≤ birdX
          -- to the left of birdX
          have hB : p.x - (n : ℚ) * c.pipeSpeed + c.pipeWidth < c.birdX := by linarith
          have hB1 : p.x - (n : ℚ) * c.pipeSpeed - c.pipeSpeed + c.pipeWidth < c.birdX := by
            linarith
          simp [hrem1, hB, hB1]
        · by_cases hB : p.x - (n : ℚ) * c.pipeSpeed + c.pipeWidth < c.birdX
          · -- already scored on an earlier tick: flag stays set, score stays 1
            have hB1 : p.x - (n : ℚ) * c.pipeSpeed - c.pipeSpeed + c.pipeWidth < c.birdX := by
              linarith
            simp [hrem1, hB, hB1]
          · by_cases hB1 : p.x - (n : ℚ) * c.pipeSpeed - c.pipeSpeed + c.pipeWidth < c.birdX
            · -- the trailing edge crosses birdX exactly this tick: score once
              simp [hrem1, hB, hB1]
            · -- still right of birdX: no score yet
              simp [hrem1, hB, hB1]

/-- Witness for C3 at the normal difficulty: a freshly spawned pipe
(x = 380) followed for 160 ticks (crossing happens at tick 165 when
380 - 165·2.2 + 52 = 69 < 70). -/
theorem score_exactly_once_witness :
    ((0:ℚ) < defaultCfg.pipeSpeed ∧ defaultCfg.pipeSpeed ≤ defaultCfg.birdX ∧
     defaultCfg.birdX ≤ (380:ℚ) + defaultCfg.pipeWidth ∧
     (Pipe.mk 380 200 false).scored = false) ∧
    scoreTicks defaultCfg (Pipe.mk 380 200 false) 165 =
      ((if (380:ℚ) - 165 * defaultCfg.pipeSpeed + defaultCfg.pipeWidth < 0 then none
        else some ⟨(380:ℚ) - 165 * defaultCfg.pipeSpeed, 200,
                   decide ((380:ℚ) - 165 * defaultCfg.pipeSpeed + defaultCfg.pipeWidth
                            < defaultCfg.birdX)⟩),
       if (380:ℚ) - 165 * defaultCfg.pipeSpeed + defaultCfg.pipeWidth < defaultCfg.birdX
       then 1 else 0) := by
  refine ⟨⟨by norm_num [defaultCfg], by norm_num [defaultCfg], by norm_num [defaultCfg], rfl⟩, ?_⟩
  have h := score_exactly_once defaultCfg (Pipe.mk 380 200 false) 165
    (by norm_num [defaultCfg]) (by norm_num [defaultCfg]) (by norm_num [defaultCfg]) rfl
  simpa using h

/- ------------------------------------------------------------
   C4: collision detection
   ------------------------------------------------------------ -/

/-- Left edge of the padded bird box (the AABB shrunk by hitboxPad on
every side). -/
def boxLeft (c : Cfg) : ℚ := c.birdX + c.hitboxPad

/-- Top edge of the padded bird box for a bird at vertical position y. -/
def boxTop (c : Cfg) (y : ℚ) : ℚ := y + c.hitboxPad

/-- Side length of the padded bird box. -/
def boxSize (c : Cfg) : ℚ := c.birdSize - c.hitboxPad * 2

/-- Spec-side geometry: the open horizontal extent of the padded box meets
the open x-extent of the pipe. -/
def horizontalOverlap (c : Cfg) (p : Pipe) : Prop :=
  max (boxLeft c) p.x < min (boxLeft c + boxSize c) (p.x + c.pipeWidth)

/-- Spec-side geometry: the padded box reaches into the top solid region
(the half-plane y < topH). -/
def overlapsTopSolid (c : Cfg) (y : ℚ) (p : Pipe) : Prop :=
  boxTop c y < p.topH

/-- Spec-side geometry: the padded box reaches into the bottom solid
region (the half-plane y > topH + pipeGap). -/
def overlapsBottomSolid (c : Cfg) (y : ℚ) (p : Pipe) : Prop :=
  p.topH + c.pipeGap < boxTop c y + boxSize c

/-- The padded box lies entirely within the gap. -/
def insideGap (c : Cfg) (y : ℚ) (p : Pipe) : Prop :=
  p.topH ≤ boxTop c y ∧ boxTop c y + boxSize c ≤ p.topH + c.pipeGap

instance (c : Cfg) (p : Pipe) : Decidable (horizontalOverlap c p) := by
  unfold horizontalOverlap; infer_instance

instance (c : Cfg) (y : ℚ) (p : Pipe) : Decidable (overlapsTopSolid c y p) := by
  unfold overlapsTopSolid; infer_instance

instance (c : Cfg) (y : ℚ) (p : Pipe) : Decidable (overlapsBottomSolid c y p) := by
  unfold overlapsBottomSolid; infer_instance

instance (c : Cfg) (y : ℚ) (p : Pipe) : Decidable (insideGap c y p) := by
  unfold insideGap; infer_instance

/-- The collision test never reads the scored flag. -/
theorem pipeCollides_scored_irrel (c : Cfg) (y x t : ℚ) (s1 s2 : Bool) :
    pipeCollides c y ⟨x, t, s1⟩ = pipeCollides c y ⟨x, t, s2⟩ := rfl

/-- C4 counterexample: a bird hitting the ground with the only pipe far
away: the tick transitions the play state to dead although the padded box
does not horizontally overlap the pipe (neither before nor after the
pipe moves), so the claimed if-and-only-if fails — ground contact is a
separate loss condition. -/
theorem collision_iff_counterexample :
    (update 0 (World.mk defaultCfg DiffKey.normal ⟨470, 0⟩ [⟨300, 200, false⟩]
        0 GState.play 0 0 ⟨0, 0, 0⟩) []).1.state = GState.dead ∧
    ¬ horizontalOverlap defaultCfg ⟨300, 200, false⟩ ∧
    ¬ horizontalOverlap defaultCfg
        ⟨300 - defaultCfg.pipeSpeed, 200, false⟩ := by
  refine ⟨?_, ?_, ?_⟩
  · rw [update]
    rw [if_neg (by simp)]
    dsimp only
    rw [if_pos (by norm_num [birdPhysics, defaultCfg])]
    exact die_state 0 _
  · intro h
    rw [horizontalOverlap, max_lt_iff, lt_min_iff, lt_min_iff] at h
    norm_num [boxLeft, boxSize, defaultCfg] at h
  · intro h
    rw [horizontalOverlap, max_lt_iff, lt_min_iff, lt_min_iff] at h
    norm_num [boxLeft, boxSize, defaultCfg] at h

/-- C4 amended: the pipe-collision check of the physics tick fires exactly
when the padded bird box horizontally overlaps the pipe and reaches into
the pipe's top or bottom solid region; a padded box lying entirely within
the gap never triggers it; and for a play-state tick that neither touches
the ground nor spawns or discards a pipe, the run transitions to dead
precisely when the (moved) pipe passes this check.  Ground contact is a
separate, independent loss condition (see the counterexample). -/
theorem collision_characterization (c : Cfg) (y : ℚ) (p : Pipe)
    (hbs : 0 < boxSize c) (hW : 0 < c.pipeWidth) :
    (pipeCollides c y p = true ↔
      (horizontalOverlap c p ∧ (overlapsTopSolid c y p ∨ overlapsBottomSolid c y p))) ∧
    (insideGap c y p → pipeCollides c y p = false) ∧
    (∀ (w : World) (now : ℚ) (rand : List ℚ),
      w.cfg = c → w.state = GState.play → w.pipes = [p] →
      (birdPhysics c w.bird).y = y →
      now - w.lastPipeTime ≤ c.pipeSpawn →
      (birdPhysics c w.bird).y + c.birdSize ≤ c.height - c.groundH →
      0 ≤ p.x - c.pipeSpeed + c.pipeWidth →
      ((update now w rand).1.state = GState.dead ↔
        pipeCollides c y ⟨p.x - c.pipeSpeed, p.topH, true⟩ = true)) := by
  have hbs' : 0 < c.birdSize - c.hitboxPad * 2 := hbs
  refine ⟨?_, ?_, ?_⟩
  · -- the check is exactly the spec-side overlap geometry
    simp only [pipeCollides, Bool.and_eq_true, decide_eq_true_eq]
    unfold horizontalOverlap overlapsTopSolid overlapsBottomSolid boxLeft boxTop boxSize
    constructor
    · rintro ⟨⟨h1, h2⟩, h3⟩
      constructor
      · rw [max_lt_iff, lt_min_iff, lt_min_iff]
        exact ⟨⟨by linarith, by linarith⟩, by linarith, by linarith⟩
      · exact h3
    · rintro ⟨hh, h3⟩
      rw [max_lt_iff, lt_min_iff, lt_min_iff] at hh
      exact ⟨⟨hh.2.1, hh.1.2⟩, h3⟩
  · -- a box inside the gap never collides
    intro hgap
    unfold insideGap boxTop boxSize at hgap
    have hB : decide (y + c.hitboxPad < p.topH ∨
        p.topH + c.pipeGap < y + c.hitboxPad + (c.birdSize - c.hitboxPad * 2)) = false := by
      rw [decide_eq_false_iff_not]
      rintro (h | h)
      · linarith [hgap.1]
      · linarith [hgap.2]
    simp only [pipeCollides]
    rw [hB, Bool.and_false]
  · -- tick-level: dead exactly when the moved pipe passes the check
    intro w now rand hcfg hstate hpipes hy hnospawn hnoground hnotOff
    subst hcfg
    subst hy
    rw [update]
    rw [if_neg (by rw [hstate]; simp)]
    rw [if_neg (show ¬(w.cfg.height - w.cfg.groundH <
          (birdPhysics w.cfg w.bird).y + w.cfg.birdSize) by linarith)]
    rw [if_neg (show ¬(w.cfg.pipeSpawn < now - w.lastPipeTime) by linarith)]
    rw [hpipes]
    dsimp only
    rw [List.reverse_singleton, runPipes]
    rw [if_neg (show ¬(p.x - w.cfg.pipeSpeed + w.cfg.pipeWidth < 0) by linarith)]
    simp only [runPipes]
    have hsame : pipeCollides w.cfg (birdPhysics w.cfg w.bird).y
        ⟨p.x - w.cfg.pipeSpeed, p.topH,
          p.scored || (!p.scored &&
            decide (p.x - w.cfg.pipeSpeed + w.cfg.pipeWidth < w.cfg.birdX))⟩
        = pipeCollides w.cfg (birdPhysics w.cfg w.bird).y
            ⟨p.x - w.cfg.pipeSpeed, p.topH, true⟩ := rfl
    rcases Bool.dichotomy (pipeCollides w.cfg (birdPhysics w.cfg w.bird).y
        ⟨p.x - w.cfg.pipeSpeed, p.topH, true⟩) with hcol | hcol
    · rw [hsame, hcol]
      simp only [Bool.false_eq_true, if_false]
      rw [hstate]
      simp
    · rw [hsame, hcol]
      simp only [if_true]
      simp [die_state]

/-- Witness for the amended C4 at the normal configuration, a bird at
y = 200 and a pipe at x = 60 with topH = 150. -/
theorem collision_characterization_witness :
    ((0:ℚ) < boxSize defaultCfg ∧ (0:ℚ) < defaultCfg.pipeWidth) ∧
    ((pipeCollides defaultCfg 200 ⟨60, 150, false⟩ = true ↔
      (horizontalOverlap defaultCfg ⟨60, 150, false⟩ ∧
        (overlapsTopSolid defaultCfg 200 ⟨60, 150, false⟩ ∨
         overlapsBottomSolid defaultCfg 200 ⟨60, 150, false⟩))) ∧
     (insideGap defaultCfg 200 ⟨60, 150, false⟩ →
       pipeCollides defaultCfg 200 ⟨60, 150, false⟩ = false) ∧
     (∀ (w : World) (now : ℚ) (rand : List ℚ),
       w.cfg = defaultCfg → w.state = GState.play → w.pipes = [⟨60, 150, false⟩] →
       (birdPhysics defaultCfg w.bird).y = 200 →
       now - w.lastPipeTime ≤ defaultCfg.pipeSpawn →
       (birdPhysics defaultCfg w.bird).y + defaultCfg.birdSize
         ≤ defaultCfg.height - defaultCfg.groundH →
       0 ≤ (60:ℚ) - defaultCfg.pipeSpeed + defaultCfg.pipeWidth →
       ((update now w rand).1.state = GState.dead ↔
         pipeCollides defaultCfg 200
           ⟨(60:ℚ) - defaultCfg.pipeSpeed, 150, true⟩ = true))) := by
  refine ⟨⟨by norm_num [boxSize, defaultCfg], by norm_num [defaultCfg]⟩, ?_⟩
  exact collision_characterization defaultCfg 200 ⟨60, 150, false⟩
    (by norm_num [boxSize, defaultCfg]) (by norm_num [defaultCfg])

/- ------------------------------------------------------------
   C5: fixed-timestep loop (lines 1318-1342)
   ------------------------------------------------------------ -/

/-- `TICK_MS = 1000 / 60`. -/
def TICK_MS : ℚ := 1000 / 60

/-- `MAX_TICKS = 4`. -/
def MAX_TICKS : ℕ := 4

/-- One iteration of the while loop body of `loop()`: consume one tick
worth of accumulated time if at least `TICK_MS` is available.  The loop
guard `ticks < MAX_TICKS` is realised by unrolling exactly `MAX_TICKS`
guarded steps in `frame` (each step increments the tick count by at most
one, so four steps are exactly the capped while loop). -/
def drainStep (s : ℕ × ℚ) : ℕ × ℚ :=
  if TICK_MS ≤ s.2 then (s.1 + 1, s.2 - TICK_MS) else s

/-- One animation frame of `loop()`: add the frame delta to the
accumulator, drain up to `MAX_TICKS` fixed ticks, and discard the whole
accumulator when the cap was reached
(`if (ticks >= MAX_TICKS) accumulator = 0`).  Returns the number of
physics ticks run and the new accumulator. -/
def frame (acc delta : ℚ) : ℕ × ℚ :=
  let r := drainStep (drainStep (drainStep (drainStep (0, acc + delta))))
  (r.1, if MAX_TICKS ≤ r.1 then 0 else r.2)

/-- Total physics ticks over a sequence of frame deltas. -/
def totalTicksAux : ℚ → List ℚ → ℕ
  | _, [] => 0
  | acc, d :: ds => (frame acc d).1 + totalTicksAux (frame acc d).2 ds

def totalTicks (ds : List ℚ) : ℕ := totalTicksAux 0 ds

/-- The per-tick bird states over `n` ticks: `update` advances the bird by
exactly `birdPhysics` on every play-state tick (see
`update_bird_physics`), so while the run stays alive the bird follows
this sequence. -/
def birdTrajectory (c : Cfg) (b : Bird) (n : ℕ) : List Bird :=
  (List.range n).map (fun k => (birdPhysics c)^[k + 1] b)

theorem TICK_MS_pos : (0:ℚ) < TICK_MS := by norm_num [TICK_MS]

theorem drainStep_lt (s : ℕ × ℚ) (h : s.2 < TICK_MS) : drainStep s = s := by
  rw [drainStep, if_neg (by linarith)]

theorem drainStep_ge (s : ℕ × ℚ) (h : TICK_MS ≤ s.2) :
    drainStep s = (s.1 + 1, s.2 - TICK_MS) := by
  rw [drainStep, if_pos h]

theorem drain_eq (a : ℚ) (k : ℕ) (hk : k ≤ 3)
    (hlo : (k : ℚ) * TICK_MS ≤ a) (hhi : a < ((k : ℚ) + 1) * TICK_MS) :
    drainStep (drainStep (drainStep (drainStep (0, a)))) =
      (k, a - (k : ℚ) * TICK_MS) := by
  have hT := TICK_MS_pos
  interval_cases k
  · push_cast at hlo hhi
    have h0 : a < TICK_MS := by linarith
    rw [drainStep_lt (0, a) h0, drainStep_lt (0, a) h0,
        drainStep_lt (0, a) h0, drainStep_lt (0, a) h0]
    rw [Prod.mk.injEq]
    exact ⟨rfl, by push_cast; ring⟩
  · push_cast at hlo hhi
    rw [drainStep_ge (0, a) (by linarith)]
    have h1 : a - TICK_MS < TICK_MS := by linarith
    rw [drainStep_lt (0 + 1, a - TICK_MS) h1, drainStep_lt (0 + 1, a - TICK_MS) h1,
        drainStep_lt (0 + 1, a - TICK_MS) h1]
    rw [Prod.mk.injEq]
    exact ⟨rfl, by push_cast; ring⟩
  · push_cast at hlo hhi
    rw [drainStep_ge (0, a) (by linarith)]
    rw [drainStep_ge (0 + 1, a - TICK_MS) (by simp only; linarith)]
    have h2 : a - TICK_MS - TICK_MS < TICK_MS := by linarith
    rw [drainStep_lt (0 + 1 + 1, a - TICK_MS - TICK_MS) h2,
        drainStep_lt (0 + 1 + 1, a - TICK_MS - TICK_MS) h2]
    rw [Prod.mk.injEq]
    exact ⟨rfl, by push_cast; ring⟩
  · push_cast at hlo hhi
    rw [drainStep_ge (0, a) (by linarith)]
    rw [drainStep_ge (0 + 1, a - TICK_MS) (by simp only; linarith)]
    rw [drainStep_ge (0 + 1 + 1, a - TICK_MS - TICK_MS) (by simp only; linarith)]
    have h3 : a - TICK_MS - TICK_MS - TICK_MS < TICK_MS := by linarith
    rw [drainStep_lt (0 + 1 + 1 + 1, a - TICK_MS - TICK_MS - TICK_MS) h3]
    rw [Prod.mk.injEq]
    exact ⟨rfl, by push_cast; ring⟩

theorem frame_eq (acc d : ℚ) (k : ℕ) (hk : k ≤ 3)
    (hlo : (k : ℚ) * TICK_MS ≤ acc + d) (hhi : acc + d < ((k : ℚ) + 1) * TICK_MS) :
    frame acc d = (k, acc + d - (k : ℚ) * TICK_MS) := by
  rw [frame]
  rw [drain_eq (acc + d) k hk hlo hhi]
  simp only [MAX_TICKS]
  rw [if_neg (by omega)]

/-- With the accumulator below one tick and every frame delta at most
three ticks long, the total tick count over the whole run depends only on
the total elapsed time. -/
theorem totalTicksAux_eq (ds : List ℚ) : ∀ acc : ℚ, 0 ≤ acc → acc < TICK_MS →
    (∀ d ∈ ds, 0 ≤ d ∧ d ≤ 3 * TICK_MS) →
    totalTicksAux acc ds = (Int.floor ((acc + ds.sum) / TICK_MS)).toNat := by
  have hT := TICK_MS_pos
  induction ds with
  | nil =>
      intro acc h0 h1 _
      rw [totalTicksAux]
      rw [List.sum_nil, add_zero]
      have : Int.floor (acc / TICK_MS) = 0 := by
        rw [Int.floor_eq_zero_iff]
        constructor
        · exact div_nonneg h0 (le_of_lt hT)
        · rw [div_lt_one hT]; exact h1
      rw [this]
      rfl
  | cons d ds ih =>
      intro acc h0 h1 hb
      obtain ⟨hd0, hd3⟩ := hb d (List.mem_cons_self d ds)
      have ha0 : 0 ≤ acc + d := by linarith
      have ha4 : acc + d < 4 * TICK_MS := by linarith
      have hK0 : 0 ≤ Int.floor ((acc + d) / TICK_MS) :=
        Int.floor_nonneg.mpr (div_nonneg ha0 (le_of_lt hT))
      have hK4 : Int.floor ((acc + d) / TICK_MS) < 4 := by
        rw [Int.floor_lt]
        rw [div_lt_iff hT]
        push_cast
        linarith
      set K := Int.floor ((acc + d) / TICK_MS) with hKdef
      set k : ℕ := K.toNat with hkdef
      have hkK : (k : ℤ) = K := Int.toNat_of_nonneg hK0
      have hk3 : k ≤ 3 := by omega
      have hkQ : (k : ℚ) = ((K : ℤ) : ℚ) := by exact_mod_cast congrArg (Int.cast) hkK
      have hlo : (k : ℚ) * TICK_MS ≤ acc + d := by
        rw [hkQ]
        have := Int.floor_le ((acc + d) / TICK_MS)
        rw [← hKdef] at this
        calc ((K : ℤ) : ℚ) * TICK_MS ≤ ((acc + d) / TICK_MS) * TICK_MS := by
              exact mul_le_mul_of_nonneg_right this (le_of_lt hT)
        _ = acc + d := by field_simp
      have hhi : acc + d < ((k : ℚ) + 1) * TICK_MS := by
        rw [hkQ]
        have := Int.lt_floor_add_one ((acc + d) / TICK_MS)
        rw [← hKdef] at this
        have h2 : (acc + d) / TICK_MS * TICK_MS < (((K : ℤ) : ℚ) + 1) * TICK_MS :=
          mul_lt_mul_of_pos_right this hT
        calc acc + d = (acc + d) / TICK_MS * TICK_MS := by field_simp
        _ < (((K : ℤ) : ℚ) + 1) * TICK_MS := h2
      rw [totalTicksAux]
      rw [frame_eq acc d k hk3 hlo hhi]
      simp only
      have hrem0 : 0 ≤ acc + d - (k : ℚ) * TICK_MS := by linarith
      have hrem1 : acc + d - (k : ℚ) * TICK_MS < TICK_MS := by
        have : ((k : ℚ) + 1) * TICK_MS = (k : ℚ) * TICK_MS + TICK_MS := by ring
        linarith [hhi]
      rw [ih (acc + d - (k : ℚ) * TICK_MS) hrem0 hrem1
          (fun e he => hb e (List.mem_cons_of_mem d he))]
      have hsum0 : 0 ≤ ds.sum :=
        List.sum_nonneg (fun e he => (hb e (List.mem_cons_of_mem d he)).1)
      have harg : (acc + d - (k : ℚ) * TICK_MS + ds.sum) / TICK_MS
          = (acc + (d :: ds).sum) / TICK_MS - (k : ℤ) := by
        rw [List.sum_cons]
        push_cast
        field_simp
        ring
      rw [harg, Int.floor_sub_int]
      have hmono : (k : ℤ) ≤ Int.floor ((acc + (d :: ds).sum) / TICK_MS) := by
        rw [hkK, hKdef]
        apply Int.floor_le_floor
        gcongr
        rw [List.sum_cons]
        linarith
      omega

/-- Every play-state tick advances the bird by exactly `birdPhysics`,
independently of the pipes, the wall-clock `now` and the random stream:
`update` writes `birdPhysics` into the bird before any death or spawn
handling and never touches the bird afterwards. -/
theorem update_bird_physics (now : ℚ) (w : World) (rand : List ℚ)
    (hs : w.state = GState.play) :
    (update now w rand).1.bird = birdPhysics w.cfg w.bird := by
  rw [update]
  rw [if_neg (by rw [hs]; simp)]
  dsimp only
  split_ifs <;> first
    | rfl
    | (rw [die]; split_ifs <;> rfl)

/-- C5 counterexample: the frame-delta sequences [100] and [50, 50] sum to
the same total elapsed time, yet the single 100 ms frame hits the
MAX_TICKS = 4 catch-up cap (discarding the rest of the accumulator and
running 4 ticks) while the two 50 ms frames run 3 ticks each — so the
per-tick bird trajectories have different lengths and are not equal. -/
theorem fixed_timestep_counterexample :
    ((100:ℚ) = 50 + 50) ∧
    birdTrajectory defaultCfg ⟨230, 0⟩ (totalTicks [(100:ℚ)]) ≠
      birdTrajectory defaultCfg ⟨230, 0⟩ (totalTicks [(50:ℚ), 50]) := by
  have hT := TICK_MS_pos
  have h100 : totalTicks [(100:ℚ)] = 4 := by
    rw [totalTicks, totalTicksAux, totalTicksAux]
    have hd : drainStep (drainStep (drainStep (drainStep (0, (0:ℚ) + 100)))) =
        (0 + 1 + 1 + 1 + 1, 0 + 100 - TICK_MS - TICK_MS - TICK_MS - TICK_MS) := by
      rw [drainStep_ge (0, (0:ℚ) + 100) (by norm_num [TICK_MS])]
      rw [drainStep_ge (0 + 1, (0:ℚ) + 100 - TICK_MS) (by norm_num [TICK_MS])]
      rw [drainStep_ge (0 + 1 + 1, (0:ℚ) + 100 - TICK_MS - TICK_MS) (by norm_num [TICK_MS])]
      rw [drainStep_ge (0 + 1 + 1 + 1, (0:ℚ) + 100 - TICK_MS - TICK_MS - TICK_MS)
        (by norm_num [TICK_MS])]
    rw [frame, hd]
  have h50 : frame (0:ℚ) 50 = (3, 0) := by
    have := frame_eq (0:ℚ) 50 3 (by norm_num)
      (by push_cast; norm_num [TICK_MS]) (by push_cast; norm_num [TICK_MS])
    rw [this]
    norm_num [TICK_MS]
  have h5050 : totalTicks [(50:ℚ), 50] = 6 := by
    rw [totalTicks, totalTicksAux, totalTicksAux, totalTicksAux]
    rw [h50]
    dsimp only
    rw [h50]
    norm_num
  refine ⟨by norm_num, ?_⟩
  rw [h100, h5050]
  intro hcon
  have hlen := congrArg List.length hcon
  simp only [birdTrajectory, List.length_map, List.length_range] at hlen
  omega

/-- C5 amended: provided every frame delta is nonnegative and at most
three tick periods (50 ms, i.e. the cap is never hit and no accumulated
time is discarded), the number of physics ticks executed depends only on
the total elapsed time, so two delta sequences with equal sums yield the
same tick count and the identical per-tick bird trajectory; moreover every
play-state tick advances the bird by exactly `birdPhysics`, independently
of pipes, wall-clock time and the random stream.  (With larger deltas the
MAX_TICKS cap discards time and the tick counts diverge — see the
counterexample.) -/
theorem fixed_timestep_amended (c : Cfg) (b : Bird) (ds1 ds2 : List ℚ)
    (h1 : ∀ d ∈ ds1, 0 ≤ d ∧ d ≤ 3 * TICK_MS)
    (h2 : ∀ d ∈ ds2, 0 ≤ d ∧ d ≤ 3 * TICK_MS)
    (hsum : ds1.sum = ds2.sum) :
    totalTicks ds1 = totalTicks ds2 ∧
    birdTrajectory c b (totalTicks ds1) = birdTrajectory c b (totalTicks ds2) ∧
    (∀ (now : ℚ) (w : World) (rand : List ℚ), w.state = GState.play →
      (update now w rand).1.bird = birdPhysics w.cfg w.bird) := by
  have heq : totalTicks ds1 = totalTicks ds2 := by
    rw [totalTicks, totalTicks]
    rw [totalTicksAux_eq ds1 0 (le_refl 0) TICK_MS_pos h1]
    rw [totalTicksAux_eq ds2 0 (le_refl 0) TICK_MS_pos h2]
    rw [hsum]
  exact ⟨heq, by rw [heq], fun now w rand hs => update_bird_physics now w rand hs⟩

/-- Witness for the amended C5: deltas [30, 30] against [20, 40]
(all at most 50 ms, both summing to 60 ms). -/
theorem fixed_timestep_amended_witness :
    ((∀ d ∈ [(30:ℚ), 30], 0 ≤ d ∧ d ≤ 3 * TICK_MS) ∧
     (∀ d ∈ [(20:ℚ), 40], 0 ≤ d ∧ d ≤ 3 * TICK_MS) ∧
     [(30:ℚ), 30].sum = [(20:ℚ), 40].sum) ∧
    (totalTicks [(30:ℚ), 30] = totalTicks [(20:ℚ), 40] ∧
     birdTrajectory defaultCfg ⟨230, 0⟩ (totalTicks [(30:ℚ), 30]) =
       birdTrajectory defaultCfg ⟨230, 0⟩ (totalTicks [(20:ℚ), 40]) ∧
     (∀ (now : ℚ) (w : World) (rand : List ℚ), w.state = GState.play →
       (update now w rand).1.bird = birdPhysics w.cfg w.bird)) := by
  have hb1 : ∀ d ∈ [(30:ℚ), 30], 0 ≤ d ∧ d ≤ 3 * TICK_MS := by
    intro d hd
    fin_cases hd <;> norm_num [TICK_MS]
  have hb2 : ∀ d ∈ [(20:ℚ), 40], 0 ≤ d ∧ d ≤ 3 * TICK_MS := by
    intro d hd
    fin_cases hd <;> norm_num [TICK_MS]
  have hs : [(30:ℚ), 30].sum = [(20:ℚ), 40].sum := by norm_num
  exact ⟨⟨hb1, hb2, hs⟩,
    fixed_timestep_amended defaultCfg ⟨230, 0⟩ [(30:ℚ), 30] [(20:ℚ), 40] hb1 hb2 hs⟩

end Flappy

/- ============================================================
   A model of the JSON.parse builtin, sufficient for the stored
   artifacts of this repository (history arrays of string-field
   objects and integer best-score maps).  Fractions, exponents and
   unicode escapes are rejected; the inputs used below agree with
   the real builtin.
   ============================================================ -/

namespace MiniJson

inductive JVal where
  | jnull
  | jbool (b : Bool)
  | jnum (n : ℤ)
  | jstr (s : String)
  | jarr (elems : List JVal)
  | jobj (fields : List (String × JVal))

/-- The two brace characters, written by code point. -/
def lbrace : Char := Char.ofNat 123

def rbrace : Char := Char.ofNat 125

def skipWs : List Char → List Char
  | [] => []
  | c :: cs =>
      if c = ' ' ∨ c = '\n' ∨ c = '\t' ∨ c = '\r' then skipWs cs else c :: cs

/-- Body of a double-quoted string after the opening quote; supports the
escapes needed here.  Returns the characters and the rest of the input. -/
def parseStringBody : List Char → Option (List Char × List Char)
  | [] => none
  | c :: cs =>
      if c = '"' then some ([], cs)
      else if c = '\\' then
        match cs with
        | [] => none
        | e :: cs2 =>
            if e = '"' ∨ e = '\\' ∨ e = '/' then
              match parseStringBody cs2 with
              | some (acc, rest) => some (e :: acc, rest)
              | none => none
            else none
      else
        match parseStringBody cs with
        | some (acc, rest) => some (c :: acc, rest)
        | none => none

def digitVal (c : Char) : Option ℕ :=
  if c.isDigit then some (c.toNat - 48) else none

def parseDigitsAux : List Char → ℕ → ℕ × List Char
  | [], acc => (acc, [])
  | c :: cs, acc =>
      match digitVal c with
      | some d => parseDigitsAux cs (acc * 10 + d)
      | none => (acc, c :: cs)

/-- An optionally signed run of decimal digits. -/
def parseNumber : List Char → Option (ℤ × List Char)
  | [] => none
  | c :: cs =>
      if c = '-' then
        match cs with
        | [] => none
        | d :: _ =>
            if d.isDigit then
              let r := parseDigitsAux cs 0
              some (-(r.1 : ℤ), r.2)
            else none
      else if c.isDigit then
        let r := parseDigitsAux (c :: cs) 0
        some ((r.1 : ℤ), r.2)
      else none

/-- Parse mode: a value, the items of an array, or the fields of an
object (the flag records whether no item has been read yet, so that an
immediate closing bracket is only legal there). -/
inductive PMode where
  | val
  | arr (isFirst : Bool)
  | obj (isFirst : Bool)

/-- Recursive JSON recognizer; the fuel argument only bounds nesting and
is chosen generously by `jsonParse`. -/
def parseF : ℕ → PMode → List Char → Option (JVal × List Char)
  | 0, _, _ => none
  | fuel + 1, PMode.val, cs =>
      match skipWs cs with
      | [] => none
      | c :: rest =>
          if c = 'n' then
            match rest with
            | 'u' :: 'l' :: 'l' :: r2 => some (JVal.jnull, r2)
            | _ => none
          else if c = 't' then
            match rest with
            | 'r' :: 'u' :: 'e' :: r2 => some (JVal.jbool true, r2)
            | _ => none
          else if c = 'f' then
            match rest with
            | 'a' :: 'l' :: 's' :: 'e' :: r2 => some (JVal.jbool false, r2)
            | _ => none
          else if c = '"' then
            match parseStringBody rest with
            | some (acc, r2) => some (JVal.jstr (String.mk acc), r2)
            | none => none
          else if c = '[' then parseF fuel (PMode.arr true) rest
          else if c = lbrace then parseF fuel (PMode.obj true) rest
          else
            match parseNumber (c :: rest) with
            | some (n, r2) => some (JVal.jnum n, r2)
            | none => none
  | fuel + 1, PMode.arr isFirst, cs =>
      match skipWs cs with
      | ']' :: r2 => if isFirst then some (JVal.jarr [], r2) else none
      | cs1 =>
          match parseF fuel PMode.val cs1 with
          | none => none
          | some (v, r2) =>
              match skipWs r2 with
              | ',' :: r3 =>
                  match parseF fuel (PMode.arr false) r3 with
                  | some (JVal.jarr vs, r4) => some (JVal.jarr (v :: vs), r4)
                  | _ => none
              | ']' :: r3 => some (JVal.jarr [v], r3)
              | _ => none
  | fuel + 1, PMode.obj isFirst, cs =>
      match skipWs cs with
      | [] => none
      | c :: r2 =>
          if c = rbrace then
            if isFirst then some (JVal.jobj [], r2) else none
          else if c = '"' then
            match parseStringBody r2 with
            | none => none
            | some (key, r3) =>
                match skipWs r3 with
                | ':' :: r4 =>
                    match parseF fuel PMode.val r4 with
                    | none => none
                    | some (v, r5) =>
                        match skipWs r5 with
                        | ',' :: r6 =>
                            match parseF fuel (PMode.obj false) r6 with
                            | some (JVal.jobj fs, r7) =>
                                some (JVal.jobj ((String.mk key, v) :: fs), r7)
                            | _ => none
                        | c2 :: r6 =>
                            if c2 = rbrace then
                              some (JVal.jobj [(String.mk key, v)], r6)
                            else none
                        | _ => none
                | _ => none
          else none

/-- Model of the `JSON.parse` builtin: `none` models a thrown
SyntaxError.  Trailing whitespace is allowed, anything else after the
value is an error. -/
def jsonParse (s : String) : Option JVal :=
  match parseF (s.length * 2 + 2) PMode.val s.toList with
  | some (v, rest) => if (skipWs rest).isEmpty then some v else none
  | none => none

/-- JavaScript `raw || dflt` on an optional stored string: null and the
empty string are falsy. -/
def jsOr (raw : Option String) (dflt : String) : String :=
  match raw with
  | none => dflt
  | some s => if s = "" then dflt else s

/-- `parseInt(s, 10)`: the leading optionally signed integer; NaN is
modelled as 0 because the only use compares the result with `> 0`. -/
def parseIntJS (s : String) : ℤ :=
  match parseNumber s.toList with
  | some (n, _) => n
  | none => 0

end MiniJson

/- ============================================================
   C6: corrupt / missing persisted values at startup
   ============================================================ -/

namespace SpinToWin

/-- Line 190 of src/unnamed/part_000:
`spinHistory = JSON.parse(localStorage.getItem(TOKENS.storageKey) || '[]')`.
There is no try/catch around it: a parse failure (`none`) is an uncaught
exception thrown at module top level, so wheel startup fails. -/
def loadSpinHistory (raw : Option String) : Option MiniJson.JVal :=
  MiniJson.jsonParse (MiniJson.jsOr raw "[]")

end SpinToWin

namespace Flappy

/-- Read an object field as JavaScript property access does: for an
object the last occurrence of the key wins, for any other non-null value
the access yields undefined (`none`). -/
def getField (j : MiniJson.JVal) (key : String) : Option MiniJson.JVal :=
  match j with
  | MiniJson.JVal.jobj fields => (fields.reverse).lookup key
  | _ => none

def numField (j : MiniJson.JVal) (key : String) : Option ℤ :=
  match getField j key with
  | some (MiniJson.JVal.jnum n) => some n
  | _ => none

/-- The merge loop of loadBestScores: for each difficulty key, adopt the
stored entry when it is a number strictly greater than 0. -/
def mergeBest (j : MiniJson.JVal) (b : BestScores) : BestScores :=
  let b1 := match numField j "easy" with
            | some n => if 0 < n then b.set DiffKey.easy n.toNat else b
            | none => b
  let b2 := match numField j "normal" with
            | some n => if 0 < n then b1.set DiffKey.normal n.toNat else b1
            | none => b1
  match numField j "hard" with
  | some n => if 0 < n then b2.set DiffKey.hard n.toNat else b2
  | none => b2

/-- The body of the try block of loadBestScores (lines 164-183); `none`
models a thrown exception (a JSON.parse SyntaxError, or the TypeError of
`parsed[k]` when the stored value is the JSON null).  `rawV2` is the
value stored under the v2 key, `rawOld` under the legacy single-score
key.  The source guards both branches on the truthiness of `raw`
(`if (raw) { parse and merge }` then `if (!raw) { migrate }`), and the
empty string is falsy in JavaScript, so a missing OR empty stored value
skips the parse and takes the legacy-key migration path. -/
def tryLoadBest (rawV2 rawOld : Option String) : Option BestScores :=
  let migrate : Option BestScores :=
    let old := MiniJson.parseIntJS (MiniJson.jsOr rawOld "0")
    if 0 < old then some ⟨0, old.toNat, 0⟩ else some ⟨0, 0, 0⟩
  match rawV2 with
  | some s =>
      if s = "" then migrate
      else
        match MiniJson.jsonParse s with
        | none => none
        | some MiniJson.JVal.jnull => none
        | some j => some (mergeBest j ⟨0, 0, 0⟩)
  | none => migrate

/-- `loadBestScores()`: the try/catch keeps the all-zero defaults on any
exception, so the load never fails. -/
def loadBestScores (rawV2 rawOld : Option String) : BestScores :=
  match tryLoadBest rawV2 rawOld with
  | some b => b
  | none => ⟨0, 0, 0⟩

end Flappy

/-- C6 counterexample: a stored spin-history value that is not valid JSON
makes the module-level `JSON.parse` of the wheel throw (modelled as
`none`), so wheel startup fails — refuting the claim that no stored value
causes startup to fail. -/
theorem wheel_corrupt_history_throws :
    SpinToWin.loadSpinHistory (some "not json") = none := rfl

/-- C6 amended: the flappy best-score load never fails — whenever the try
body throws (modelled by `tryLoadBest = none`) the catch keeps the
all-zero default map, and it does throw on an unparseable stored value
(such as "not json", a SyntaxError of the parse) and on the stored JSON
null (whose `parsed[k]` access raises a TypeError); a missing or
empty-string (JavaScript-falsy) stored value skips the parse and takes
the legacy-key migration instead — all-zero when the legacy key is
absent, normal = old when it holds a positive integer.  The wheel history
load yields the empty array for a missing value, but an unparseable
stored value throws at module top level and wheel startup fails.  (The
concrete stored values used here are ones on which the modelled
JSON.parse agrees with the real builtin.) -/
theorem storage_corruption_handling :
    (∀ (rawV2 rawOld : Option String), Flappy.tryLoadBest rawV2 rawOld = none →
        Flappy.loadBestScores rawV2 rawOld = ⟨0, 0, 0⟩) ∧
    (∀ rawOld : Option String,
        Flappy.tryLoadBest (some "not json") rawOld = none ∧
        Flappy.tryLoadBest (some "null") rawOld = none) ∧
    (∀ rawOld : Option String,
        Flappy.loadBestScores (some "not json") rawOld = ⟨0, 0, 0⟩ ∧
        Flappy.loadBestScores (some "null") rawOld = ⟨0, 0, 0⟩) ∧
    Flappy.loadBestScores none none = ⟨0, 0, 0⟩ ∧
    Flappy.loadBestScores none (some "5") = ⟨0, 5, 0⟩ ∧
    Flappy.loadBestScores (some "") (some "5") = ⟨0, 5, 0⟩ ∧
    SpinToWin.loadSpinHistory none = some (MiniJson.JVal.jarr []) ∧
    SpinToWin.loadSpinHistory (some "not json") = none := by
  refine ⟨?_, ?_, ?_, rfl, rfl, rfl, rfl, rfl⟩
  · intro rawV2 rawOld hthrow
    rw [Flappy.loadBestScores, hthrow]
  · intro rawOld
    constructor
    · rw [Flappy.tryLoadBest]
      rw [if_neg (by simp)]
      rw [show MiniJson.jsonParse "not json" = none from rfl]
    · rw [Flappy.tryLoadBest]
      rw [if_neg (by simp)]
      rw [show MiniJson.jsonParse "null" = some MiniJson.JVal.jnull from rfl]
  · intro rawOld
    constructor
    · rw [Flappy.loadBestScores, Flappy.tryLoadBest]
      rw [if_neg (by simp)]
      rw [show MiniJson.jsonParse "not json" = none from rfl]
    · rw [Flappy.loadBestScores, Flappy.tryLoadBest]
      rw [if_neg (by simp)]
      rw [show MiniJson.jsonParse "null" = some MiniJson.JVal.jnull from rfl]

/-- Witness for the amended C6 at the unparseable stored value
"not json" with a concrete legacy value. -/
theorem storage_corruption_handling_witness :
    (Flappy.tryLoadBest (some "not json") (some "7") = none ∧
     Flappy.loadBestScores (some "not json") (some "7") = ⟨0, 0, 0⟩ ∧
     Flappy.loadBestScores (some "null") (some "7") = ⟨0, 0, 0⟩) := by
  have h := storage_corruption_handling
  exact ⟨(h.2.1 (some "7")).1,
    h.1 (some "not json") (some "7") (h.2.1 (some "7")).1,
    (h.2.2.1 (some "7")).2⟩

/- ============================================================
   C7: startup fetch fallbacks
   ============================================================ -/

namespace SpinToWin

/-- The startup fetch of data/team.json (lines 576-585 of
src/unnamed/part_000): on success `names = data.members`; the `.catch`
handler only logs the error, so on failure `names` keeps its initial
value `[]`.  `fetched` is `none` when the fetch or its JSON decoding
fails. -/
def wheelInitNames (fetched : Option (List String)) : List String :=
  match fetched with
  | some members => members
  | none => []

end SpinToWin

namespace Flappy

/-- The inline fallback banner pool (lines 109-112). -/
def defaultBannerTexts : List String :=
  ["Triple Win!", "SNKO 2026", "Second Nature", "Resident Benefits",
   "Credit Building", "Grow the Pie", "Moment Maker", "Extreme Ownership"]

/-- `loadBannerTexts()` (lines 114-122): adopt the fetched JSON only when
it is a non-empty array; any fetch failure, non-OK response, or invalid
shape keeps the inline fallback.  `fetched` is `none` in all the failure
cases. -/
def loadBannerTexts (fetched : Option (List String)) : List String :=
  match fetched with
  | some json => if 0 < json.length then json else defaultBannerTexts
  | none => defaultBannerTexts

end Flappy

/-- C7 counterexample: a failed roster fetch leaves the wheel with an
empty roster — the `.catch` handler of the team-data fetch only logs, no
built-in default name list is substituted, refuting the claim for the
roster fetch. -/
theorem roster_fetch_no_fallback :
    SpinToWin.wheelInitNames none = [] := rfl

/-- C7 amended: the banner-text fetch falls back to the embedded
non-empty default pool on failure or invalid data (and never yields an
empty pool), but the roster fetch has no fallback: on failure the wheel
is left with the empty roster, not a built-in default list. -/
theorem fetch_fallback_handling :
    (∀ fetched : Option (List String), Flappy.loadBannerTexts fetched ≠ []) ∧
    Flappy.loadBannerTexts none = Flappy.defaultBannerTexts ∧
    (∀ xs : List String, xs ≠ [] → Flappy.loadBannerTexts (some xs) = xs) ∧
    SpinToWin.wheelInitNames none = [] := by
  refine ⟨?_, rfl, ?_, rfl⟩
  · intro fetched
    match fetched with
    | none => simp [Flappy.loadBannerTexts, Flappy.defaultBannerTexts]
    | some [] => simp [Flappy.loadBannerTexts, Flappy.defaultBannerTexts]
    | some (x :: xs) => simp [Flappy.loadBannerTexts]
  · intro xs hxs
    match xs, hxs with
    | x :: xs, _ => simp [Flappy.loadBannerTexts]

/-- Witness for the amended C7 at a concrete non-empty fetched banner
list. -/
theorem fetch_fallback_handling_witness :
    (["Hello"] ≠ ([] : List String)) ∧
    Flappy.loadBannerTexts (some ["Hello"]) = ["Hello"] ∧
    Flappy.loadBannerTexts none ≠ [] := by
  have h := fetch_fallback_handling
  exact ⟨by simp, h.2.2.1 ["Hello"] (by simp), h.1 none⟩
